import Mathlib

/-!
Shallow embedding of `src/samples/api/hpp_hello_triangle/hpp_hello_triangle.cpp`
(class `HPPHelloTriangle`), covering the per-frame resource lifecycle:
the semaphore recycling pool, the per-frame slot bookkeeping, swapchain
(re)creation, resize, and the per-frame update cycle
(acquire / render / submit / present).

Modelling conventions:
  * Opaque Vulkan handles (semaphores, fences, command pools/buffers,
    image views, framebuffers, the swapchain) are natural numbers;
    a fresh handle is drawn from an allocation counter `nextHandle`,
    so distinct creations yield distinct handles.
  * Driver responses (`vkGetPhysicalDeviceSurfaceCapabilitiesKHR`,
    `vkGetSwapchainImagesKHR`, `vkAcquireNextImageKHR`, `vkQueuePresentKHR`)
    are an oracle `Env`: per driver entry point, a stream of responses
    indexed by a call counter kept in the application state.
  * Every Vulkan side effect the claims observe (creations, destructions,
    fence waits/resets, command-pool resets, queue/device idle waits,
    the resize invocation with its arguments, command recording/submission,
    presentation, the error log) is recorded in an event trace.
  * `std::vector<vk::Semaphore> recycled_semaphores` is used by the code
    only through `push_back`, `pop_back`, `back` and `empty`, i.e. as a
    stack; it is modelled as a `List` whose HEAD is the vector's BACK.
-/

namespace HelloTriangle

abbrev Handle := Nat

/-- `vk::Extent2D`: a pair of `uint32_t` dimensions. -/
structure Extent where
  width : Nat
  height : Nat
deriving DecidableEq, Repr

/-- The `vk::Result` values distinguished by the sample's control flow.
`otherError` stands for any non-success result that is neither
`eSuboptimalKHR` nor `eErrorOutOfDateKHR` (e.g. `eErrorDeviceLost`). -/
inductive VkResult where
  | success
  | suboptimalKHR
  | errorOutOfDateKHR
  | otherError
deriving DecidableEq, Repr

/-- Per-frame data (struct `FrameData` held in `per_frame_data`):
`vk::Fence queue_submit_fence; vk::CommandPool primary_command_pool;
vk::CommandBuffer primary_command_buffer;
vk::Semaphore swapchain_acquire_semaphore, swapchain_release_semaphore`.
Null handles are `none`. -/
structure FrameData where
  queue_submit_fence : Option Handle := none
  primary_command_buffer : Option Handle := none
  primary_command_pool : Option Handle := none
  swapchain_acquire_semaphore : Option Handle := none
  swapchain_release_semaphore : Option Handle := none
deriving DecidableEq, Repr

/-- `swapchain_data`: the swapchain handle, its dimensions, format, and the
per-image views and framebuffers. -/
structure SwapchainData where
  swapchain : Option Handle := none
  extent : Extent := ⟨0, 0⟩
  format : Nat := 0
  image_views : List Handle := []
  framebuffers : List Handle := []
deriving DecidableEq, Repr

/-- The fields of `vk::SurfaceCapabilitiesKHR` the modelled code reads. -/
structure SurfaceCaps where
  minImageCount : Nat
  maxImageCount : Nat
  currentExtent : Extent
deriving DecidableEq, Repr

/-- The mutable state of `HPPHelloTriangle` relevant to the frame cycle,
together with the fresh-handle allocator and per-entry-point driver
call counters (used to index the `Env` oracle streams). -/
structure AppState where
  deviceExists : Bool := true
  recycled_semaphores : List Handle := []
  per_frame_data : List FrameData := []
  swapchain_data : SwapchainData := {}
  nextHandle : Handle := 0
  capsCalls : Nat := 0
  imagesCalls : Nat := 0
  acquireCalls : Nat := 0
  presentCalls : Nat := 0
deriving DecidableEq, Repr

/-- Driver oracle: the response of the k-th call to each Vulkan entry point
whose result the sample branches on, plus the surface format selected by
`vkb::common::select_surface_format`. -/
structure Env where
  caps : Nat → SurfaceCaps
  images : Nat → Nat
  acquire : Nat → VkResult × Nat
  present : Nat → VkResult
  fmt : Nat

/-- Observable Vulkan-side effects, in program order. -/
inductive Event where
  | createSemaphore (s : Handle)
  | destroySemaphore (s : Handle)
  | acquireCall (sem : Handle)
  | waitFence (f : Handle)
  | resetFence (f : Handle)
  | resetCommandPool (p : Handle)
  | destroyFence (f : Handle)
  | freeCommandBuffer (pool : Option Handle) (cb : Handle)
  | destroyCommandPool (p : Handle)
  | destroyImageView (v : Handle)
  | destroyFramebuffer (f : Handle)
  | destroySwapchain (s : Handle)
  | createSwapchain (s : Handle) (requestedImages : Nat)
  | createFence (f : Handle)
  | createCommandPool (p : Handle)
  | createCommandBuffer (cb : Handle)
  | createImageView (v : Handle)
  | createFramebuffer (f : Handle)
  | resizeCall (w h : Nat)
  | queueWaitIdle
  | deviceWaitIdle
  | render (idx : Nat)
  | submit (idx : Nat)
  | presentCall (idx : Nat)
  | logPresentError
deriving DecidableEq, Repr

/-- Draw a fresh handle from the allocator. -/
def alloc (st : AppState) : Handle × AppState :=
  (st.nextHandle, { st with nextHandle := st.nextHandle + 1 })

/-! ## Semaphore pool (lines 250-259 and the push_back sites) -/

/-- Lines 250-259 of `acquire_next_image`: take a semaphore from
`recycled_semaphores` (`back` + `pop_back`) or create a fresh one when
the pool is empty. -/
def semaphore_pool_acquire (st : AppState) : (Handle × AppState) × List Event :=
  match st.recycled_semaphores with
  | [] =>
      let (h, st') := alloc st
      ((h, st'), [Event.createSemaphore h])
  | s :: rest => ((s, { st with recycled_semaphores := rest }), [])

/-- `recycled_semaphores.push_back(s)` (the release side of the pool). -/
def semaphore_pool_release (st : AppState) (s : Handle) : AppState :=
  { st with recycled_semaphores := s :: st.recycled_semaphores }

/-- The handle `semaphore_pool_acquire` hands out. -/
def newSem (st : AppState) : Handle :=
  match st.recycled_semaphores with
  | [] => st.nextHandle
  | s :: _ => s

/-- The state after `semaphore_pool_acquire`. -/
def popState (st : AppState) : AppState :=
  match st.recycled_semaphores with
  | [] => { st with nextHandle := st.nextHandle + 1 }
  | _ :: rest => { st with recycled_semaphores := rest }

/-- N successive pool acquires (only the state and trace are observed). -/
def pool_acquireN : Nat → AppState → AppState × List Event
  | 0, st => (st, [])
  | n + 1, st =>
      let ((_, st'), ev) := semaphore_pool_acquire st
      let (st'', evs) := pool_acquireN n st'
      (st'', ev ++ evs)

/-- Sequence of pool releases for the given handles. -/
def pool_releaseAll (st : AppState) (ss : List Handle) : AppState :=
  ss.foldl semaphore_pool_release st

/-! ## teardown_per_frame (lines 833-864) -/

/-- `teardown_per_frame`: destroy, in order, the fence, the command buffer
(freed against the current `primary_command_pool` field), the command pool,
the acquire semaphore, the release semaphore — each only if present, and
each field nulled right after its destruction. -/
def teardown_per_frame (pfd : FrameData) : FrameData × List Event :=
  let (pfd, t1) :=
    match pfd.queue_submit_fence with
    | some f => ({ pfd with queue_submit_fence := none }, [Event.destroyFence f])
    | none => (pfd, [])
  let (pfd, t2) :=
    match pfd.primary_command_buffer with
    | some cb => ({ pfd with primary_command_buffer := none },
                  [Event.freeCommandBuffer pfd.primary_command_pool cb])
    | none => (pfd, [])
  let (pfd, t3) :=
    match pfd.primary_command_pool with
    | some p => ({ pfd with primary_command_pool := none }, [Event.destroyCommandPool p])
    | none => (pfd, [])
  let (pfd, t4) :=
    match pfd.swapchain_acquire_semaphore with
    | some s => ({ pfd with swapchain_acquire_semaphore := none }, [Event.destroySemaphore s])
    | none => (pfd, [])
  let (pfd, t5) :=
    match pfd.swapchain_release_semaphore with
    | some s => ({ pfd with swapchain_release_semaphore := none }, [Event.destroySemaphore s])
    | none => (pfd, [])
  (pfd, t1 ++ t2 ++ t3 ++ t4 ++ t5)

/-! ## acquire_next_image (lines 248-301) -/

/-- `acquire_next_image`: take a semaphore from the pool (or create one),
call `vkAcquireNextImageKHR` with it; on a non-success result push the
semaphore back into the pool and return the result.  On success: if the
indexed slot has a fence, wait for it and reset it; if it has a command
pool, reset it; push the slot's old acquire semaphore (if any) into the
pool and store the new one into the slot. -/
def acquire_next_image (env : Env) (st : AppState) :
    (VkResult × Nat) × AppState × List Event :=
  let ((acquire_semaphore, st), ev0) := semaphore_pool_acquire st
  let (res, image) := env.acquire st.acquireCalls
  let st := { st with acquireCalls := st.acquireCalls + 1 }
  let ev0 := ev0 ++ [Event.acquireCall acquire_semaphore]
  if res ≠ VkResult.success then
    ((res, image), semaphore_pool_release st acquire_semaphore, ev0)
  else
    let pfd := st.per_frame_data.getD image {}
    let ev1 :=
      match pfd.queue_submit_fence with
      | some f => [Event.waitFence f, Event.resetFence f]
      | none => []
    let ev2 :=
      match pfd.primary_command_pool with
      | some p => [Event.resetCommandPool p]
      | none => []
    let st :=
      match pfd.swapchain_acquire_semaphore with
      | some old_semaphore => semaphore_pool_release st old_semaphore
      | none => st
    let st := { st with per_frame_data :=
      st.per_frame_data.set image { pfd with swapchain_acquire_semaphore := some acquire_semaphore } }
    ((VkResult.success, image), st, ev0 ++ ev1 ++ ev2)

/-! ## create_swapchain (lines 557-615) and init_swapchain (lines 635-692) -/

/-- Lines 562-570: the image count written into
`SwapchainCreateInfoKHR::minImageCount`: `minImageCount + 1`, clamped to
`maxImageCount` when the latter is positive and exceeded. -/
def desired_swapchain_images (caps : SurfaceCaps) : Nat :=
  let desired := caps.minImageCount + 1
  if 0 < caps.maxImageCount ∧ caps.maxImageCount < desired then caps.maxImageCount
  else desired

/-- `create_swapchain`: query the surface capabilities, compute the create
info (image count per `desired_swapchain_images`; transform, composite
alpha and FIFO present mode are driver-side and not observed by any claim)
and create the swapchain, yielding a fresh handle. -/
def create_swapchain (env : Env) (st : AppState) : (Handle × AppState) × List Event :=
  let caps := env.caps st.capsCalls
  let st := { st with capsCalls := st.capsCalls + 1 }
  let (h, st) := alloc st
  ((h, st), [Event.createSwapchain h (desired_swapchain_images caps)])

/-- The old-swapchain branch of `init_swapchain` (lines 656-659): run
`teardown_per_frame` on the first `n` entries of `per_frame_data`. -/
def teardownFirst : Nat → List FrameData → List FrameData × List Event
  | _, [] => ([], [])
  | 0, l => (l, [])
  | n + 1, pfd :: rest =>
      let (pfd', ev) := teardown_per_frame pfd
      let (rest', evs) := teardownFirst n rest
      (pfd' :: rest', ev ++ evs)

/-- Lines 679-685: per swapchain image, create a signaled fence, a transient
command pool, and allocate a primary command buffer from it. -/
def buildFrames : Nat → AppState → (List FrameData × AppState) × List Event
  | 0, st => (([], st), [])
  | n + 1, st =>
      let (f, st) := alloc st
      let (p, st) := alloc st
      let (cb, st) := alloc st
      let pfd : FrameData :=
        { queue_submit_fence := some f
          primary_command_pool := some p
          primary_command_buffer := some cb }
      let ((rest, st), evs) := buildFrames n st
      ((pfd :: rest, st),
        [Event.createFence f, Event.createCommandPool p, Event.createCommandBuffer cb] ++ evs)

/-- Lines 687-691: one image view per swapchain image. -/
def buildViews : Nat → AppState → (List Handle × AppState) × List Event
  | 0, st => (([], st), [])
  | n + 1, st =>
      let (v, st) := alloc st
      let ((rest, st), evs) := buildViews n st
      ((v :: rest, st), Event.createImageView v :: evs)

/-- `init_swapchain`: query the capabilities; keep the surface-reported
current extent unless its width is the `0xFFFFFFFF` undefined sentinel, in
which case keep the stored extent; create the new swapchain (chaining the
old one); if an old swapchain existed, destroy its image views, tear down
the per-frame data of its images, and destroy it; store extent and format;
then rebuild `per_frame_data` and the image views for the new image count. -/
def init_swapchain (env : Env) (st : AppState) : AppState × List Event :=
  let caps := env.caps st.capsCalls
  let st := { st with capsCalls := st.capsCalls + 1 }
  let swapchain_extent :=
    if caps.currentExtent.width = 0xFFFFFFFF then st.swapchain_data.extent
    else caps.currentExtent
  let surface_format := env.fmt
  let old_swapchain := st.swapchain_data.swapchain
  let ((newSc, st), evC) := create_swapchain env st
  let st := { st with swapchain_data := { st.swapchain_data with swapchain := some newSc } }
  let (st, evOld) :=
    match old_swapchain with
    | some oldH =>
        let evViews := st.swapchain_data.image_views.map Event.destroyImageView
        let icOld := env.images st.imagesCalls
        let st := { st with imagesCalls := st.imagesCalls + 1 }
        let (pfds, evT) := teardownFirst icOld st.per_frame_data
        let st := { st with
          per_frame_data := pfds
          swapchain_data := { st.swapchain_data with image_views := [] } }
        (st, evViews ++ evT ++ [Event.destroySwapchain oldH])
    | none => (st, [])
  let st := { st with swapchain_data :=
    { st.swapchain_data with extent := swapchain_extent, format := surface_format } }
  let image_count := env.images st.imagesCalls
  let st := { st with imagesCalls := st.imagesCalls + 1 }
  let ((pfds, st), evF) := buildFrames image_count st
  let st := { st with per_frame_data := pfds }
  let ((views, st), evV) := buildViews image_count st
  let st := { st with swapchain_data := { st.swapchain_data with image_views := views } }
  (st, evC ++ evOld ++ evF ++ evV)

/-! ## Framebuffers (lines 620-630 and 816-827) -/

/-- `init_framebuffers`: one framebuffer per image view, appended. -/
def buildFbs : List Handle → AppState → (List Handle × AppState) × List Event
  | [], st => (([], st), [])
  | _ :: rest, st =>
      let (fb, st) := alloc st
      let ((fbs, st), evs) := buildFbs rest st
      ((fb :: fbs, st), Event.createFramebuffer fb :: evs)

def init_framebuffers (st : AppState) : AppState × List Event :=
  let ((fbs, st'), ev) := buildFbs st.swapchain_data.image_views st
  ({ st' with swapchain_data :=
      { st'.swapchain_data with framebuffers := st'.swapchain_data.framebuffers ++ fbs } },
    ev)

/-- `teardown_framebuffers`: wait for the queue to go idle, destroy every
framebuffer, clear the list. -/
def teardown_framebuffers (st : AppState) : AppState × List Event :=
  ({ st with swapchain_data := { st.swapchain_data with framebuffers := [] } },
    Event.queueWaitIdle :: st.swapchain_data.framebuffers.map Event.destroyFramebuffer)

/-! ## resize (lines 220-241) -/

/-- `resize(uint32_t, uint32_t)` — both parameters are unnamed and unused
by the body.  Returns `false` without touching anything if no device
exists; queries the surface capabilities and returns `false` if the
reported current extent equals the stored one; otherwise waits for the
device to go idle, tears down the framebuffers, and rebuilds the swapchain
and framebuffers.  The trace records the invocation with its arguments. -/
def resize (env : Env) (st : AppState) (w h : Nat) : (Bool × AppState) × List Event :=
  if st.deviceExists = false then
    ((false, st), [Event.resizeCall w h])
  else
    let caps := env.caps st.capsCalls
    let st := { st with capsCalls := st.capsCalls + 1 }
    if caps.currentExtent = st.swapchain_data.extent then
      ((false, st), [Event.resizeCall w h])
    else
      let (st, ev2) := teardown_framebuffers st
      let (st, ev3) := init_swapchain env st
      let (st, ev4) := init_framebuffers st
      ((true, st), [Event.resizeCall w h, Event.deviceWaitIdle] ++ ev2 ++ ev3 ++ ev4)

/-! ## render_triangle (lines 698-761) -/

/-- `render_triangle`: record the draw commands into the slot's command
buffer (recording has no modelled state effect and is abstracted into the
`render` event); lazily create the slot's release semaphore if absent;
submit, waiting on the slot's acquire semaphore and signaling the release
semaphore, with the slot's fence. -/
def render_triangle (st : AppState) (swapchain_index : Nat) : AppState × List Event :=
  let pfd := st.per_frame_data.getD swapchain_index {}
  let (pfd, st, evSem) :=
    match pfd.swapchain_release_semaphore with
    | some _ => (pfd, st, ([] : List Event))
    | none =>
        let (s, st) := alloc st
        ({ pfd with swapchain_release_semaphore := some s }, st, [Event.createSemaphore s])
  let st := { st with per_frame_data := st.per_frame_data.set swapchain_index pfd }
  (st, Event.render swapchain_index :: evSem ++ [Event.submit swapchain_index])

/-! ## update (lines 180-218) -/

/-- `update`: acquire; on a suboptimal/out-of-date result, resize at the
stored extent and retry the acquire once; on any remaining non-success
result, wait for the queue to go idle and return.  Otherwise render and
present; a suboptimal/out-of-date present result triggers a resize at the
stored extent, any other non-success present result only logs an error. -/
def update (env : Env) (st : AppState) : AppState × List Event :=
  let ((res, index), st, ev1) := acquire_next_image env st
  let ((res, index), st, ev2) :=
    if res = VkResult.suboptimalKHR ∨ res = VkResult.errorOutOfDateKHR then
      let ((_, st), evR) :=
        resize env st st.swapchain_data.extent.width st.swapchain_data.extent.height
      let ((res2, index2), st, evA) := acquire_next_image env st
      ((res2, index2), st, evR ++ evA)
    else ((res, index), st, ([] : List Event))
  if res ≠ VkResult.success then
    (st, ev1 ++ ev2 ++ [Event.queueWaitIdle])
  else
    let (st, ev3) := render_triangle st index
    let pres := env.present st.presentCalls
    let st := { st with presentCalls := st.presentCalls + 1 }
    let (st, ev5) :=
      if pres = VkResult.suboptimalKHR ∨ pres = VkResult.errorOutOfDateKHR then
        let ((_, st), evR) :=
          resize env st st.swapchain_data.extent.width st.swapchain_data.extent.height
        (st, evR)
      else if pres ≠ VkResult.success then
        (st, [Event.logPresentError])
      else (st, ([] : List Event))
    (st, ev1 ++ ev2 ++ ev3 ++ [Event.presentCall index] ++ ev5)

/-- The multiset of acquire semaphores held by the pool and the slots. -/
def acquireSems (st : AppState) : Multiset Nat :=
  (st.recycled_semaphores : Multiset Nat)
    + (st.per_frame_data.filterMap FrameData.swapchain_acquire_semaphore : Multiset Nat)

/-- Classifier for the frame-cycle control events that the update-loop
claims count: resize invocations, acquire calls, draws, presents, and the
present-error log. -/
def controlEvent : Event → Bool
  | .resizeCall _ _ => true
  | .acquireCall _ => true
  | .render _ => true
  | .presentCall _ => true
  | .logPresentError => true
  | _ => false

/-- A concrete driver oracle (fixed surface capabilities and image count,
constant acquire and present responses) used by the closed instance
theorems below. -/
def oracle (a : VkResult × Nat) (p : VkResult) : Env :=
  ⟨fun _ => ⟨2, 0, ⟨800, 600⟩⟩, fun _ => 3, fun _ => a, fun _ => p, 7⟩

/-- A concrete application state with one fully armed frame slot, used by
the closed instance theorems below. -/
def sampleSlotState : AppState :=
  { per_frame_data := [⟨some 1, some 3, some 2, none, none⟩], nextHandle := 4 }

/-! ## Helper lemmas -/

theorem semaphore_pool_acquire_eq (st : AppState) :
    semaphore_pool_acquire st =
      ((newSem st, popState st),
        if st.recycled_semaphores = [] then [Event.createSemaphore st.nextHandle] else []) := by
  cases h : st.recycled_semaphores <;>
    simp [semaphore_pool_acquire, newSem, popState, alloc, h]


@[simp] theorem popState_acquireCalls (st : AppState) :
    (popState st).acquireCalls = st.acquireCalls := by
  cases h : st.recycled_semaphores <;> simp [popState, h]

@[simp] theorem popState_presentCalls (st : AppState) :
    (popState st).presentCalls = st.presentCalls := by
  cases h : st.recycled_semaphores <;> simp [popState, h]

@[simp] theorem popState_capsCalls (st : AppState) :
    (popState st).capsCalls = st.capsCalls := by
  cases h : st.recycled_semaphores <;> simp [popState, h]

@[simp] theorem popState_per_frame_data (st : AppState) :
    (popState st).per_frame_data = st.per_frame_data := by
  cases h : st.recycled_semaphores <;> simp [popState, h]

@[simp] theorem popState_swapchain_data (st : AppState) :
    (popState st).swapchain_data = st.swapchain_data := by
  cases h : st.recycled_semaphores <;> simp [popState, h]

@[simp] theorem popState_recycled (st : AppState) :
    (popState st).recycled_semaphores = st.recycled_semaphores.tail := by
  cases h : st.recycled_semaphores <;> simp [popState, h]

/-- Full characterization of `acquire_next_image` on a non-success driver
result: the semaphore is pushed back, only the acquire counter changed. -/
theorem acquire_next_image_of_fail (env : Env) (st : AppState)
    (h : (env.acquire st.acquireCalls).1 ≠ VkResult.success) :
    acquire_next_image env st =
      (env.acquire st.acquireCalls,
        semaphore_pool_release { popState st with acquireCalls := st.acquireCalls + 1 } (newSem st),
        (if st.recycled_semaphores = [] then [Event.createSemaphore st.nextHandle] else [])
          ++ [Event.acquireCall (newSem st)]) := by
  rcases hE : env.acquire st.acquireCalls with ⟨r, i⟩
  rw [hE] at h
  simp only [acquire_next_image, semaphore_pool_acquire_eq, popState_acquireCalls, hE]
  simp [h]

/-- Full characterization of `acquire_next_image` on a success result. -/
theorem acquire_next_image_of_success (env : Env) (st : AppState) (i : Nat)
    (h : env.acquire st.acquireCalls = (VkResult.success, i)) :
    acquire_next_image env st =
      ((VkResult.success, i),
        { st with
            recycled_semaphores :=
              ((st.per_frame_data.getD i {}).swapchain_acquire_semaphore).elim
                st.recycled_semaphores.tail (· :: st.recycled_semaphores.tail)
            per_frame_data := st.per_frame_data.set i
              { st.per_frame_data.getD i {} with
                  swapchain_acquire_semaphore := some (newSem st) }
            nextHandle :=
              if st.recycled_semaphores = [] then st.nextHandle + 1 else st.nextHandle
            acquireCalls := st.acquireCalls + 1 },
        ((if st.recycled_semaphores = [] then [Event.createSemaphore st.nextHandle] else [])
          ++ [Event.acquireCall (newSem st)])
          ++ (match (st.per_frame_data.getD i {}).queue_submit_fence with
              | some f => [Event.waitFence f, Event.resetFence f]
              | none => [])
          ++ (match (st.per_frame_data.getD i {}).primary_command_pool with
              | some p => [Event.resetCommandPool p]
              | none => [])) := by
  simp only [acquire_next_image, semaphore_pool_acquire_eq, popState_acquireCalls,
    popState_per_frame_data, h]
  rcases hold : (st.per_frame_data.getD i {}).swapchain_acquire_semaphore with _ | o <;>
    rcases hp : st.recycled_semaphores with _ | ⟨s, rest⟩ <;>
    · rw [← hp]
      simp [hold, hp, semaphore_pool_release, popState, newSem]

/-! ## C3: semaphore-pool reuse law -/

theorem pool_releaseAll_length (st : AppState) (ss : List Handle) :
    (pool_releaseAll st ss).recycled_semaphores.length
      = st.recycled_semaphores.length + ss.length := by
  induction ss generalizing st with
  | nil => simp [pool_releaseAll]
  | cons s rest ih =>
      show (pool_releaseAll (semaphore_pool_release st s) rest).recycled_semaphores.length = _
      rw [ih]
      simp [semaphore_pool_release]
      omega

theorem pool_acquireN_no_alloc (n : Nat) (st : AppState)
    (h : n ≤ st.recycled_semaphores.length) :
    (pool_acquireN n st).2 = [] := by
  induction n generalizing st with
  | zero => simp [pool_acquireN]
  | succ n ih =>
      rcases hp : st.recycled_semaphores with _ | ⟨s, rest⟩
      · rw [hp] at h; exact absurd h (by simp)
      · simp only [pool_acquireN, semaphore_pool_acquire_eq, hp]
        have hr : ({ st with recycled_semaphores := rest } : AppState).recycled_semaphores
            = rest := rfl
        have : n ≤ rest.length := by
          have := h; rw [hp] at this; simpa using this
        simp only [newSem, popState, hp]
        rw [ih _ (by simp [this])]
        simp

/-- C3: starting from any pool state, a sequence of N releases followed by
N acquires allocates on none of the N acquires (the acquire trace contains
no creation event at all); and an acquire on an empty pool always creates
a fresh semaphore. -/
theorem semaphore_pool_reuse (st : AppState) (ss : List Handle) :
    (pool_acquireN ss.length (pool_releaseAll st ss)).2 = [] ∧
    (st.recycled_semaphores = [] →
      (semaphore_pool_acquire st).2 = [Event.createSemaphore st.nextHandle]) := by
  constructor
  · exact pool_acquireN_no_alloc _ _ (by rw [pool_releaseAll_length]; omega)
  · intro h
    rw [semaphore_pool_acquire_eq, if_pos h]

theorem semaphore_pool_reuse_witness :
    (pool_acquireN 2 (pool_releaseAll { nextHandle := 5 } [3, 4])).2 = [] ∧
    (({ nextHandle := 5 } : AppState).recycled_semaphores = [] →
      (semaphore_pool_acquire { nextHandle := 5 }).2 = [Event.createSemaphore 5]) :=
  semaphore_pool_reuse { nextHandle := 5 } [3, 4]

/-! ## C4: teardown order and idempotence -/

/-- C4: `teardown_per_frame` emits exactly the destructions of the present
handles, in the fixed order fence, command buffer (freed against the pool
field), command pool, acquire semaphore, release semaphore; afterwards
every field is absent, and a second invocation destroys nothing and leaves
the slot unchanged. -/
theorem teardown_per_frame_spec (pfd : FrameData) :
    (teardown_per_frame pfd).2 =
        pfd.queue_submit_fence.toList.map Event.destroyFence
        ++ pfd.primary_command_buffer.toList.map
            (Event.freeCommandBuffer pfd.primary_command_pool)
        ++ pfd.primary_command_pool.toList.map Event.destroyCommandPool
        ++ pfd.swapchain_acquire_semaphore.toList.map Event.destroySemaphore
        ++ pfd.swapchain_release_semaphore.toList.map Event.destroySemaphore
      ∧ (teardown_per_frame pfd).1 = ⟨none, none, none, none, none⟩
      ∧ teardown_per_frame (teardown_per_frame pfd).1 = ((teardown_per_frame pfd).1, []) := by
  obtain ⟨f, cb, cp, as, rs⟩ := pfd
  cases f <;> cases cb <;> cases cp <;> cases as <;> cases rs <;>
    simp [teardown_per_frame]

/-! ## C5: negotiated swapchain image count -/

/-- C5: the image count requested from the driver equals
`minImageCount + 1`, reduced to `maxImageCount` exactly when the latter is
nonzero and smaller; in scenario A (`minImageCount = 2`,
`maxImageCount = 0`) the request is `3`; and `create_swapchain` puts this
count into the create info it hands to the driver. -/
theorem swapchain_image_count_spec (caps : SurfaceCaps) :
    desired_swapchain_images caps =
        (if caps.maxImageCount ≠ 0 ∧ caps.maxImageCount < caps.minImageCount + 1
         then caps.maxImageCount else caps.minImageCount + 1)
      ∧ desired_swapchain_images ⟨2, 0, ⟨800, 600⟩⟩ = 3
      ∧ ∀ (env : Env) (st : AppState),
          (create_swapchain env st).2 =
            [Event.createSwapchain st.nextHandle
              (desired_swapchain_images (env.caps st.capsCalls))] := by
  refine ⟨?_, by decide, fun env st => rfl⟩
  simp only [desired_swapchain_images]
  rcases Nat.eq_zero_or_pos caps.maxImageCount with h | h
  · simp [h]
  · by_cases h2 : caps.maxImageCount < caps.minImageCount + 1 <;>
      simp [h, h2, Nat.pos_iff_ne_zero.mp h]

/-! ## C6: extent negotiation on (re)build -/

theorem buildFrames_state (n : Nat) (st : AppState) :
    (buildFrames n st).1.2 = { st with nextHandle := st.nextHandle + 3 * n } := by
  induction n generalizing st with
  | zero => simp [buildFrames]
  | succ n ih =>
      simp only [buildFrames, alloc]
      rw [ih]
      congr 1
      simp
      ring

theorem buildViews_state (n : Nat) (st : AppState) :
    (buildViews n st).1.2 = { st with nextHandle := st.nextHandle + n } := by
  induction n generalizing st with
  | zero => simp [buildViews]
  | succ n ih =>
      simp only [buildViews, alloc]
      rw [ih]
      congr 1
      simp
      ring

theorem buildFbs_state (l : List Handle) (st : AppState) :
    (buildFbs l st).1.2 = { st with nextHandle := st.nextHandle + l.length } := by
  induction l generalizing st with
  | nil => simp [buildFbs]
  | cons v rest ih =>
      simp only [buildFbs, alloc]
      rw [ih]
      congr 1
      simp
      ring

/-- C6: the extent stored by `init_swapchain` (and hence the extent of
every built or rebuilt swapchain) is the surface-reported current extent,
unless that extent carries the `0xFFFFFFFF` undefined-extent sentinel in
its width — the form in which the code recognizes the sentinel — in which
case the previously stored (caller-desired) extent is kept. -/
theorem init_swapchain_extent_spec (env : Env) (st : AppState) :
    (init_swapchain env st).1.swapchain_data.extent =
      if (env.caps st.capsCalls).currentExtent.width = 0xFFFFFFFF
      then st.swapchain_data.extent
      else (env.caps st.capsCalls).currentExtent := by
  rcases hold : st.swapchain_data.swapchain with _ | oldH <;>
    cases htd : teardownFirst (env.images st.imagesCalls) st.per_frame_data <;>
    simp [init_swapchain, create_swapchain, alloc, hold, htd,
      buildFrames_state, buildViews_state]

/-! ## C2: acquire success path -/

theorem getD_set_self (l : List FrameData) (i : Nat) (h : i < l.length) (a d : FrameData) :
    (l.set i a).getD i d = a := by
  induction l generalizing i with
  | nil => simp at h
  | cons x xs ih =>
      cases i with
      | zero => simp
      | succ j => simpa using ih j (by simpa using h)

/-- C2: on a successful acquire of image index `i`, where slot `i` holds a
fence and a command pool, `acquire_next_image` waits on the fence
(unboundedly, `UINT64_MAX` in the source), then resets it, then resets the
slot's command pool, and only then returns; the slot's previous acquire
semaphore is pushed into the pool exactly when one was present, the new
acquire semaphore is stored into slot `i`, and the slot's release
semaphore is unchanged. -/
theorem acquire_success_slot_spec (env : Env) (st : AppState) (i : Nat) (f p : Nat)
    (hacq : env.acquire st.acquireCalls = (VkResult.success, i))
    (hi : i < st.per_frame_data.length)
    (hf : (st.per_frame_data.getD i {}).queue_submit_fence = some f)
    (hp : (st.per_frame_data.getD i {}).primary_command_pool = some p) :
    (acquire_next_image env st).1 = (VkResult.success, i)
    ∧ (acquire_next_image env st).2.2 =
        (if st.recycled_semaphores = [] then [Event.createSemaphore st.nextHandle] else [])
          ++ [Event.acquireCall (newSem st), Event.waitFence f, Event.resetFence f,
              Event.resetCommandPool p]
    ∧ ((acquire_next_image env st).2.1.per_frame_data.getD i {}).swapchain_acquire_semaphore
        = some (newSem st)
    ∧ ((acquire_next_image env st).2.1.per_frame_data.getD i {}).swapchain_release_semaphore
        = (st.per_frame_data.getD i {}).swapchain_release_semaphore
    ∧ (acquire_next_image env st).2.1.recycled_semaphores
        = ((st.per_frame_data.getD i {}).swapchain_acquire_semaphore).elim
            st.recycled_semaphores.tail (· :: st.recycled_semaphores.tail) := by
  rw [acquire_next_image_of_success env st i hacq]
  have hset : ∀ a : FrameData, (st.per_frame_data.set i a)[i]? = some a :=
    fun a => List.getElem?_set_eq_of_lt a hi
  rcases hold : (st.per_frame_data.getD i {}).swapchain_acquire_semaphore with _ | o <;>
    · simp only [List.getD_eq_getElem?_getD] at hf hp hold
      simp [hf, hp, hold, semaphore_pool_release, List.getD_eq_getElem?_getD, hset]

/-! ## C9: acquire_next_image conserves the acquire-semaphore multiset -/

/-- C9: `acquire_next_image` never leaks or drops an acquire semaphore:
the multiset of acquire semaphores held in the pool plus the slots is
preserved exactly, except that a call starting from an empty pool adds the
one freshly created semaphore.  (On success the driver returns an index
within the slot array.) -/
theorem acquire_conserves_semaphores (env : Env) (st : AppState)
    (hvalid : (env.acquire st.acquireCalls).1 = VkResult.success →
      (env.acquire st.acquireCalls).2 < st.per_frame_data.length) :
    acquireSems (acquire_next_image env st).2.1
      = acquireSems st
        + (if st.recycled_semaphores = [] then {st.nextHandle} else 0) := by
  rcases hE : env.acquire st.acquireCalls with ⟨r, i⟩
  by_cases hr : r = VkResult.success
  · subst hr
    have hi : i < st.per_frame_data.length := by
      have h := hvalid (by rw [hE])
      rwa [hE] at h
    rw [acquire_next_image_of_success env st i hE]
    have hgetD : st.per_frame_data.getD i {} = st.per_frame_data.get ⟨i, hi⟩ := by
      rw [List.getD_eq_getElem?_getD, List.getElem?_eq_getElem hi]; rfl
    set T := st.per_frame_data.take i with hT
    set D := st.per_frame_data.drop (i + 1) with hD
    set x := st.per_frame_data.get ⟨i, hi⟩ with hxdef
    have hx : st.per_frame_data = T ++ x :: D := by
      rw [hT, hD, hxdef]
      rw [show (st.per_frame_data.get ⟨i, hi⟩) = st.per_frame_data[i] from rfl]
      rw [List.getElem_cons_drop st.per_frame_data i hi, List.take_append_drop]
    have hset : st.per_frame_data.set i
          { x with swapchain_acquire_semaphore := some (newSem st) }
        = T ++ { x with swapchain_acquire_semaphore := some (newSem st) } :: D :=
      List.set_eq_take_cons_drop _ hi
    rw [hgetD, hset]
    simp only [acquireSems]
    conv_rhs => rw [hx]
    rcases hsem : x.swapchain_acquire_semaphore with _ | o <;>
      rcases hp : st.recycled_semaphores with _ | ⟨s, rest⟩ <;>
      · simp [List.filterMap_append, List.filterMap_cons, hsem, newSem, hp,
          ← Multiset.cons_coe, ← Multiset.coe_add]
        try simp only [← Multiset.singleton_add]
        try abel
  · have : (env.acquire st.acquireCalls).1 ≠ VkResult.success := by rw [hE]; exact hr
    rw [acquire_next_image_of_fail env st this]
    rcases hp : st.recycled_semaphores with _ | ⟨s, rest⟩ <;>
      · simp [acquireSems, semaphore_pool_release, newSem, popState, hp,
          ← Multiset.cons_coe]
        try simp only [← Multiset.singleton_add]
        try abel

/-! ## C8: resize no-op law -/

theorem buildFrames_frames (n : Nat) (st : AppState) :
    ∀ pfd ∈ (buildFrames n st).1.1,
      pfd.queue_submit_fence.isSome ∧ pfd.primary_command_pool.isSome
        ∧ pfd.swapchain_acquire_semaphore = none
        ∧ pfd.swapchain_release_semaphore = none := by
  induction n generalizing st with
  | zero => simp [buildFrames]
  | succ n ih =>
      intro pfd hm
      simp only [buildFrames, alloc, List.mem_cons] at hm
      rcases hm with h | h
      · subst h; simp
      · exact ih _ _ h

theorem init_framebuffers_per_frame_data (st : AppState) :
    (init_framebuffers st).1.per_frame_data = st.per_frame_data := by
  simp [init_framebuffers, buildFbs_state]

theorem init_swapchain_frames (env : Env) (st : AppState) :
    ∀ pfd ∈ (init_swapchain env st).1.per_frame_data,
      pfd.queue_submit_fence.isSome ∧ pfd.primary_command_pool.isSome
        ∧ pfd.swapchain_acquire_semaphore = none
        ∧ pfd.swapchain_release_semaphore = none := by
  rcases hold : st.swapchain_data.swapchain with _ | oldH <;>
    cases htd : teardownFirst (env.images st.imagesCalls) st.per_frame_data <;>
    · intro pfd hm
      simp only [init_swapchain, create_swapchain, alloc, hold, htd, buildViews_state] at hm
      exact buildFrames_frames _ _ _ (by simpa using hm)

/-- C8: `resize` returns `false` and changes nothing (beyond the driver
call counter) when no device exists or the surface-reported current extent
equals the stored extent; only otherwise it waits for the device to go
idle, tears down the framebuffers (after a queue-idle wait), and rebuilds
the swapchain and the frame slots (fresh slots: fence and pool present,
semaphores absent). -/
theorem resize_noop_spec (env : Env) (st : AppState) (w h : Nat) :
    (st.deviceExists = false →
      resize env st w h = ((false, st), [Event.resizeCall w h])) ∧
    (st.deviceExists = true →
      (env.caps st.capsCalls).currentExtent = st.swapchain_data.extent →
      resize env st w h =
        ((false, { st with capsCalls := st.capsCalls + 1 }), [Event.resizeCall w h])) ∧
    (st.deviceExists = true →
      (env.caps st.capsCalls).currentExtent ≠ st.swapchain_data.extent →
      (resize env st w h).1.1 = true ∧
      Event.deviceWaitIdle ∈ (resize env st w h).2 ∧
      Event.queueWaitIdle ∈ (resize env st w h).2 ∧
      (∀ fb ∈ st.swapchain_data.framebuffers,
        Event.destroyFramebuffer fb ∈ (resize env st w h).2) ∧
      (∀ pfd ∈ (resize env st w h).1.2.per_frame_data,
        pfd.queue_submit_fence.isSome ∧ pfd.primary_command_pool.isSome
          ∧ pfd.swapchain_acquire_semaphore = none
          ∧ pfd.swapchain_release_semaphore = none)) := by
  refine ⟨fun hd => by simp [resize, hd], fun hd hc => by simp [resize, hd, hc], ?_⟩
  intro hd hc
  have hres : resize env st w h =
      (let st1 := { st with capsCalls := st.capsCalls + 1 }
       let (st2, ev2) := teardown_framebuffers st1
       let (st3, ev3) := init_swapchain env st2
       let (st4, ev4) := init_framebuffers st3
       ((true, st4), [Event.resizeCall w h, Event.deviceWaitIdle] ++ ev2 ++ ev3 ++ ev4)) := by
    simp [resize, hd, hc]
  refine ⟨by rw [hres], ?_, ?_, ?_, ?_⟩
  · rw [hres]; simp
  · rw [hres]; simp [teardown_framebuffers]
  · intro fb hfb
    rw [hres]
    simp [teardown_framebuffers]
    tauto
  · intro pfd hm
    rw [hres] at hm
    simp only [teardown_framebuffers, init_framebuffers_per_frame_data] at hm
    exact init_swapchain_frames _ _ _ (by simpa using hm)

theorem resize_noop_spec_witness :
    (({ deviceExists := true, swapchain_data := { extent := ⟨800, 600⟩ } } : AppState).deviceExists
        = true)
    ∧ ((Env.mk (fun _ => ⟨2, 0, ⟨800, 600⟩⟩) (fun _ => 3) (fun _ => (.success, 0))
          (fun _ => .success) 7).caps 0).currentExtent
        = ({ deviceExists := true, swapchain_data := { extent := ⟨800, 600⟩ } } : AppState).swapchain_data.extent
    ∧ resize (Env.mk (fun _ => ⟨2, 0, ⟨800, 600⟩⟩) (fun _ => 3) (fun _ => (.success, 0))
          (fun _ => .success) 7)
        { deviceExists := true, swapchain_data := { extent := ⟨800, 600⟩ } } 640 480 =
        ((false, { deviceExists := true, swapchain_data := { extent := ⟨800, 600⟩ },
                   capsCalls := 1 }), [Event.resizeCall 640 480]) :=
  ⟨rfl, rfl,
    (resize_noop_spec (Env.mk (fun _ => ⟨2, 0, ⟨800, 600⟩⟩) (fun _ => 3) (fun _ => (.success, 0))
        (fun _ => .success) 7)
      { deviceExists := true, swapchain_data := { extent := ⟨800, 600⟩ } } 640 480).2.1 rfl rfl⟩

/-! ## C10: resize ignores its arguments -/

/-- C10: two `resize` calls on the same state with arbitrary argument
pairs return the same value and the same resulting application state —
the `uint32_t` parameters are unnamed in the source and never read. -/
theorem resize_ignores_args (env : Env) (st : AppState) (w1 h1 w2 h2 : Nat) :
    (resize env st w1 h1).1 = (resize env st w2 h2).1 := by
  by_cases hd : st.deviceExists = false
  · simp [resize, hd]
  · by_cases hc : (env.caps st.capsCalls).currentExtent = st.swapchain_data.extent <;>
      simp [resize, hd, hc]

/-! ## Trace and counter lemmas for the update cycle -/

theorem teardown_per_frame_filter (pfd : FrameData) :
    ((teardown_per_frame pfd).2).filter controlEvent = [] := by
  obtain ⟨f, cb, cp, as, rs⟩ := pfd
  cases f <;> cases cb <;> cases cp <;> cases as <;> cases rs <;>
    simp [teardown_per_frame, controlEvent]

theorem teardownFirst_filter (n : Nat) (l : List FrameData) :
    ((teardownFirst n l).2).filter controlEvent = [] := by
  induction l generalizing n with
  | nil => cases n <;> simp [teardownFirst]
  | cons pfd rest ih =>
      cases n with
      | zero => simp [teardownFirst]
      | succ m =>
          simp [teardownFirst, List.filter_append, teardown_per_frame_filter, ih]

theorem buildFrames_filter (n : Nat) (st : AppState) :
    ((buildFrames n st).2).filter controlEvent = [] := by
  induction n generalizing st with
  | zero => simp [buildFrames]
  | succ n ih => simp [buildFrames, alloc, List.filter_append, controlEvent, ih]

theorem buildViews_filter (n : Nat) (st : AppState) :
    ((buildViews n st).2).filter controlEvent = [] := by
  induction n generalizing st with
  | zero => simp [buildViews]
  | succ n ih => simp [buildViews, alloc, controlEvent, ih]

theorem buildFbs_filter (l : List Handle) (st : AppState) :
    ((buildFbs l st).2).filter controlEvent = [] := by
  induction l generalizing st with
  | nil => simp [buildFbs]
  | cons v rest ih => simp [buildFbs, alloc, controlEvent, ih]

theorem init_swapchain_filter (env : Env) (st : AppState) :
    ((init_swapchain env st).2).filter controlEvent = [] := by
  rcases hold : st.swapchain_data.swapchain with _ | oldH <;>
    · simp only [init_swapchain, create_swapchain, alloc, hold]
      simp [List.filter_append, buildFrames_filter, buildViews_filter,
        teardownFirst_filter, controlEvent, List.filter_eq_nil_iff]

theorem init_framebuffers_filter (st : AppState) :
    ((init_framebuffers st).2).filter controlEvent = [] := by
  simp [init_framebuffers, buildFbs_filter]

theorem teardown_framebuffers_filter (st : AppState) :
    ((teardown_framebuffers st).2).filter controlEvent = [] := by
  simp [teardown_framebuffers, controlEvent, List.filter_eq_nil_iff]

theorem resize_filter (env : Env) (st : AppState) (w h : Nat) :
    ((resize env st w h).2).filter controlEvent = [Event.resizeCall w h] := by
  by_cases hd : st.deviceExists = false
  · simp [resize, hd, controlEvent]
  · by_cases hc : (env.caps st.capsCalls).currentExtent = st.swapchain_data.extent <;>
      simp [resize, hd, hc, controlEvent, List.filter_append,
        teardown_framebuffers_filter, init_swapchain_filter, init_framebuffers_filter]

theorem acquire_next_image_filter (env : Env) (st : AppState) :
    ((acquire_next_image env st).2.2).filter controlEvent
      = [Event.acquireCall (newSem st)] := by
  rcases hE : env.acquire st.acquireCalls with ⟨r, i⟩
  by_cases hr : r = VkResult.success
  · subst hr
    rw [acquire_next_image_of_success env st i hE]
    rcases hf : (st.per_frame_data.getD i {}).queue_submit_fence with _ | f <;>
      rcases hcp : (st.per_frame_data.getD i {}).primary_command_pool with _ | p <;>
      rcases hp : st.recycled_semaphores with _ | ⟨a, rest⟩ <;>
      simp [hf, hcp, hp, List.filter_append, controlEvent]
  · rw [acquire_next_image_of_fail env st (by rw [hE]; exact hr)]
    rcases hp : st.recycled_semaphores with _ | ⟨a, rest⟩ <;>
      simp [hp, List.filter_append, controlEvent]

theorem render_triangle_filter (st : AppState) (i : Nat) :
    ((render_triangle st i).2).filter controlEvent = [Event.render i] := by
  rcases hrel : (st.per_frame_data.getD i {}).swapchain_release_semaphore with _ | r <;>
    · simp only [List.getD_eq_getElem?_getD] at hrel
      simp [render_triangle, alloc, hrel, controlEvent]

theorem init_swapchain_acquireCalls (env : Env) (st : AppState) :
    (init_swapchain env st).1.acquireCalls = st.acquireCalls := by
  rcases hold : st.swapchain_data.swapchain with _ | oldH <;>
    cases htd : teardownFirst (env.images st.imagesCalls) st.per_frame_data <;>
    simp [init_swapchain, create_swapchain, alloc, hold, htd,
      buildFrames_state, buildViews_state]

theorem init_swapchain_presentCalls (env : Env) (st : AppState) :
    (init_swapchain env st).1.presentCalls = st.presentCalls := by
  rcases hold : st.swapchain_data.swapchain with _ | oldH <;>
    cases htd : teardownFirst (env.images st.imagesCalls) st.per_frame_data <;>
    simp [init_swapchain, create_swapchain, alloc, hold, htd,
      buildFrames_state, buildViews_state]

theorem resize_acquireCalls (env : Env) (st : AppState) (w h : Nat) :
    (resize env st w h).1.2.acquireCalls = st.acquireCalls := by
  by_cases hd : st.deviceExists = false
  · simp [resize, hd]
  · by_cases hc : (env.caps st.capsCalls).currentExtent = st.swapchain_data.extent <;>
      simp [resize, hd, hc, init_framebuffers, buildFbs_state, teardown_framebuffers,
        init_swapchain_acquireCalls]

theorem resize_presentCalls (env : Env) (st : AppState) (w h : Nat) :
    (resize env st w h).1.2.presentCalls = st.presentCalls := by
  by_cases hd : st.deviceExists = false
  · simp [resize, hd]
  · by_cases hc : (env.caps st.capsCalls).currentExtent = st.swapchain_data.extent <;>
      simp [resize, hd, hc, init_framebuffers, buildFbs_state, teardown_framebuffers,
        init_swapchain_presentCalls]

theorem acquire_next_image_acquireCalls (env : Env) (st : AppState) :
    (acquire_next_image env st).2.1.acquireCalls = st.acquireCalls + 1 := by
  rcases hE : env.acquire st.acquireCalls with ⟨r, i⟩
  by_cases hr : r = VkResult.success
  · subst hr
    rw [acquire_next_image_of_success env st i hE]
  · rw [acquire_next_image_of_fail env st (by rw [hE]; exact hr)]
    simp [semaphore_pool_release]

theorem acquire_next_image_presentCalls (env : Env) (st : AppState) :
    (acquire_next_image env st).2.1.presentCalls = st.presentCalls := by
  rcases hE : env.acquire st.acquireCalls with ⟨r, i⟩
  by_cases hr : r = VkResult.success
  · subst hr
    rw [acquire_next_image_of_success env st i hE]
  · rw [acquire_next_image_of_fail env st (by rw [hE]; exact hr)]
    simp [semaphore_pool_release]

theorem acquire_next_image_swapchain_data (env : Env) (st : AppState) :
    (acquire_next_image env st).2.1.swapchain_data = st.swapchain_data := by
  rcases hE : env.acquire st.acquireCalls with ⟨r, i⟩
  by_cases hr : r = VkResult.success
  · subst hr
    rw [acquire_next_image_of_success env st i hE]
  · rw [acquire_next_image_of_fail env st (by rw [hE]; exact hr)]
    simp [semaphore_pool_release]

theorem render_triangle_presentCalls (st : AppState) (i : Nat) :
    (render_triangle st i).1.presentCalls = st.presentCalls := by
  rcases hrel : (st.per_frame_data.getD i {}).swapchain_release_semaphore with _ | r <;>
    · simp only [List.getD_eq_getElem?_getD] at hrel
      simp [render_triangle, alloc, hrel]

theorem render_triangle_swapchain_data (st : AppState) (i : Nat) :
    (render_triangle st i).1.swapchain_data = st.swapchain_data := by
  rcases hrel : (st.per_frame_data.getD i {}).swapchain_release_semaphore with _ | r <;>
    · simp only [List.getD_eq_getElem?_getD] at hrel
      simp [render_triangle, alloc, hrel]

/-! ## C1 and C7: the update-cycle retry and present policies -/

theorem acquire_next_image_fst (env : Env) (st : AppState) :
    (acquire_next_image env st).1 = env.acquire st.acquireCalls := by
  rcases hE : env.acquire st.acquireCalls with ⟨r, i⟩
  by_cases hr : r = VkResult.success
  · subst hr
    rw [acquire_next_image_of_success env st i hE]
  · rw [acquire_next_image_of_fail env st (by rw [hE]; exact hr)]
    rw [hE]

/-- The shape `update` takes when the first acquire reports staleness and
the retried acquire also fails. -/
theorem update_retry_eq (env : Env) (st : AppState)
    (h1 : (env.acquire st.acquireCalls).1 = VkResult.suboptimalKHR ∨
          (env.acquire st.acquireCalls).1 = VkResult.errorOutOfDateKHR)
    (h2 : (env.acquire (st.acquireCalls + 1)).1 ≠ VkResult.success) :
    update env st =
      ((acquire_next_image env (resize env (acquire_next_image env st).2.1
          (acquire_next_image env st).2.1.swapchain_data.extent.width
          (acquire_next_image env st).2.1.swapchain_data.extent.height).1.2).2.1,
        (acquire_next_image env st).2.2
          ++ ((resize env (acquire_next_image env st).2.1
                (acquire_next_image env st).2.1.swapchain_data.extent.width
                (acquire_next_image env st).2.1.swapchain_data.extent.height).2
              ++ (acquire_next_image env (resize env (acquire_next_image env st).2.1
                    (acquire_next_image env st).2.1.swapchain_data.extent.width
                    (acquire_next_image env st).2.1.swapchain_data.extent.height).1.2).2.2)
          ++ [Event.queueWaitIdle]) := by
  simp only [update, acquire_next_image_fst, resize_acquireCalls,
    acquire_next_image_acquireCalls]
  rw [if_pos h1, if_pos h2]

/-- C1: when the first acquire of a frame reports suboptimal/out-of-date,
`update` pushes the just-obtained acquire semaphore back into the pool,
invokes the (extent-based) Surface Set rebuild exactly once, passing the
previous extent as its arguments, and retries the acquire exactly once;
when the retry also returns non-success it waits for the queue to go idle
and returns without any render or present.  The control-event trace is
exactly acquire, resize-at-previous-extent, acquire — no render, no
present — and the very last action is the queue-idle wait. -/
theorem update_acquire_retry_spec (env : Env) (st : AppState)
    (h1 : (env.acquire st.acquireCalls).1 = VkResult.suboptimalKHR ∨
          (env.acquire st.acquireCalls).1 = VkResult.errorOutOfDateKHR)
    (h2 : (env.acquire (st.acquireCalls + 1)).1 ≠ VkResult.success) :
    (∃ s2, (update env st).2.filter controlEvent =
        [Event.acquireCall (newSem st),
         Event.resizeCall st.swapchain_data.extent.width st.swapchain_data.extent.height,
         Event.acquireCall s2])
    ∧ (update env st).2.getLast? = some Event.queueWaitIdle
    ∧ newSem st ∈ (acquire_next_image env st).2.1.recycled_semaphores := by
  have hfail1 : (env.acquire st.acquireCalls).1 ≠ VkResult.success := by
    rcases h1 with h | h <;> rw [h] <;> simp
  refine ⟨⟨newSem (resize env (acquire_next_image env st).2.1
      (acquire_next_image env st).2.1.swapchain_data.extent.width
      (acquire_next_image env st).2.1.swapchain_data.extent.height).1.2, ?_⟩, ?_, ?_⟩
  · rw [update_retry_eq env st h1 h2]
    simp [List.filter_append, acquire_next_image_filter, resize_filter, controlEvent,
      acquire_next_image_swapchain_data]
  · rw [update_retry_eq env st h1 h2]
    exact List.getLast?_concat _
  · rw [acquire_next_image_of_fail env st hfail1]
    simp [semaphore_pool_release]

theorem update_acquire_retry_spec_witness :
    (((oracle (VkResult.suboptimalKHR, 0) VkResult.success).acquire
        ({} : AppState).acquireCalls).1 = VkResult.suboptimalKHR ∨
     ((oracle (VkResult.suboptimalKHR, 0) VkResult.success).acquire
        ({} : AppState).acquireCalls).1 = VkResult.errorOutOfDateKHR)
    ∧ ((oracle (VkResult.suboptimalKHR, 0) VkResult.success).acquire
        (({} : AppState).acquireCalls + 1)).1 ≠ VkResult.success
    ∧ ((∃ s2, (update (oracle (VkResult.suboptimalKHR, 0) VkResult.success)
          {}).2.filter controlEvent =
          [Event.acquireCall (newSem ({} : AppState)),
           Event.resizeCall ({} : AppState).swapchain_data.extent.width
             ({} : AppState).swapchain_data.extent.height,
           Event.acquireCall s2])
        ∧ (update (oracle (VkResult.suboptimalKHR, 0) VkResult.success)
            {}).2.getLast? = some Event.queueWaitIdle
        ∧ newSem ({} : AppState) ∈ (acquire_next_image
            (oracle (VkResult.suboptimalKHR, 0) VkResult.success)
            {}).2.1.recycled_semaphores) :=
  ⟨Or.inl rfl, by decide,
    update_acquire_retry_spec _ _ (Or.inl rfl) (by decide)⟩

set_option maxHeartbeats 1600000 in
/-- C7: after a successful acquire of image `i`, `update` renders and
presents exactly once; if the present reports suboptimal/out-of-date it
invokes exactly one Surface Set rebuild with the last-known extent and does
not retry presentation within the frame; any other non-success present
result only logs an error — no rebuild and no retry. -/
theorem update_present_policy_spec (env : Env) (st : AppState) (i : Nat)
    (hacq : env.acquire st.acquireCalls = (VkResult.success, i)) :
    ((env.present st.presentCalls = VkResult.suboptimalKHR ∨
      env.present st.presentCalls = VkResult.errorOutOfDateKHR) →
      (update env st).2.filter controlEvent =
        [Event.acquireCall (newSem st), Event.render i, Event.presentCall i,
         Event.resizeCall st.swapchain_data.extent.width st.swapchain_data.extent.height])
    ∧ (env.present st.presentCalls ≠ VkResult.success →
       env.present st.presentCalls ≠ VkResult.suboptimalKHR →
       env.present st.presentCalls ≠ VkResult.errorOutOfDateKHR →
      (update env st).2.filter controlEvent =
        [Event.acquireCall (newSem st), Event.render i, Event.presentCall i,
         Event.logPresentError]) := by
  have c1 : ¬(VkResult.success = VkResult.suboptimalKHR ∨
      VkResult.success = VkResult.errorOutOfDateKHR) := by simp
  constructor
  · intro hp
    simp only [update, acquire_next_image_fst, hacq]
    rw [if_neg c1]
    simp only [ne_eq]
    rw [if_neg (by simp)]
    simp only [render_triangle_presentCalls, acquire_next_image_presentCalls]
    rw [if_pos hp]
    simp [List.filter_append, acquire_next_image_filter, render_triangle_filter,
      resize_filter, controlEvent, render_triangle_swapchain_data,
      acquire_next_image_swapchain_data]
  · intro hp1 hp2 hp3
    simp only [update, acquire_next_image_fst, hacq]
    rw [if_neg c1]
    simp only [ne_eq]
    rw [if_neg (by simp)]
    simp only [render_triangle_presentCalls, acquire_next_image_presentCalls]
    rw [if_neg (by simp [hp2, hp3]), if_pos hp1]
    simp [List.filter_append, acquire_next_image_filter, render_triangle_filter,
      controlEvent]

theorem update_present_policy_spec_witness :
    (oracle (VkResult.success, 0) VkResult.suboptimalKHR).acquire
      ({} : AppState).acquireCalls = (VkResult.success, 0)
    ∧ ((((oracle (VkResult.success, 0) VkResult.suboptimalKHR).present
          ({} : AppState).presentCalls = VkResult.suboptimalKHR ∨
        (oracle (VkResult.success, 0) VkResult.suboptimalKHR).present
          ({} : AppState).presentCalls = VkResult.errorOutOfDateKHR) →
        (update (oracle (VkResult.success, 0) VkResult.suboptimalKHR)
            {}).2.filter controlEvent =
          [Event.acquireCall (newSem ({} : AppState)), Event.render 0,
           Event.presentCall 0,
           Event.resizeCall ({} : AppState).swapchain_data.extent.width
             ({} : AppState).swapchain_data.extent.height])
      ∧ ((oracle (VkResult.success, 0) VkResult.suboptimalKHR).present
            ({} : AppState).presentCalls ≠ VkResult.success →
         (oracle (VkResult.success, 0) VkResult.suboptimalKHR).present
            ({} : AppState).presentCalls ≠ VkResult.suboptimalKHR →
         (oracle (VkResult.success, 0) VkResult.suboptimalKHR).present
            ({} : AppState).presentCalls ≠ VkResult.errorOutOfDateKHR →
        (update (oracle (VkResult.success, 0) VkResult.suboptimalKHR)
            {}).2.filter controlEvent =
          [Event.acquireCall (newSem ({} : AppState)), Event.render 0,
           Event.presentCall 0, Event.logPresentError])) :=
  ⟨rfl, update_present_policy_spec _ _ 0 rfl⟩

theorem acquire_success_slot_spec_witness :
    (oracle (VkResult.success, 0) VkResult.success).acquire
      sampleSlotState.acquireCalls = (VkResult.success, 0)
    ∧ 0 < sampleSlotState.per_frame_data.length
    ∧ (sampleSlotState.per_frame_data.getD 0 {}).queue_submit_fence = some 1
    ∧ (sampleSlotState.per_frame_data.getD 0 {}).primary_command_pool = some 2
    ∧ ((acquire_next_image (oracle (VkResult.success, 0) VkResult.success)
          sampleSlotState).1 = (VkResult.success, 0)
      ∧ (acquire_next_image (oracle (VkResult.success, 0) VkResult.success)
          sampleSlotState).2.2 =
          (if sampleSlotState.recycled_semaphores = []
           then [Event.createSemaphore sampleSlotState.nextHandle] else [])
            ++ [Event.acquireCall (newSem sampleSlotState), Event.waitFence 1,
                Event.resetFence 1, Event.resetCommandPool 2]
      ∧ ((acquire_next_image (oracle (VkResult.success, 0) VkResult.success)
            sampleSlotState).2.1.per_frame_data.getD 0 {}).swapchain_acquire_semaphore
          = some (newSem sampleSlotState)
      ∧ ((acquire_next_image (oracle (VkResult.success, 0) VkResult.success)
            sampleSlotState).2.1.per_frame_data.getD 0 {}).swapchain_release_semaphore
          = ((sampleSlotState.per_frame_data.getD 0 {}).swapchain_release_semaphore)
      ∧ (acquire_next_image (oracle (VkResult.success, 0) VkResult.success)
            sampleSlotState).2.1.recycled_semaphores
          = ((sampleSlotState.per_frame_data.getD 0 {}).swapchain_acquire_semaphore).elim
              sampleSlotState.recycled_semaphores.tail
              (· :: sampleSlotState.recycled_semaphores.tail)) :=
  ⟨rfl, by decide, by decide, by decide,
    acquire_success_slot_spec _ _ 0 1 2 rfl (by decide) (by decide) (by decide)⟩

theorem acquire_conserves_semaphores_witness :
    (((oracle (VkResult.success, 0) VkResult.success).acquire
        sampleSlotState.acquireCalls).1 = VkResult.success →
      ((oracle (VkResult.success, 0) VkResult.success).acquire
        sampleSlotState.acquireCalls).2 < sampleSlotState.per_frame_data.length)
    ∧ acquireSems (acquire_next_image (oracle (VkResult.success, 0) VkResult.success)
          sampleSlotState).2.1
        = acquireSems sampleSlotState
          + (if sampleSlotState.recycled_semaphores = []
             then {sampleSlotState.nextHandle} else 0) :=
  ⟨by decide, acquire_conserves_semaphores _ _ (by decide)⟩

end HelloTriangle
